import Mathlib

/-!
Verification development for the ripples authoritative DNS server.

Shallow embedding of the C sources: byte buffers are `List Nat` (each element
a byte value), pointers become offsets, `uint16_t`/`uint8_t` arithmetic is
`Nat` with explicit `% 2^w` where the C code truncates, and fallible
operations return sum types.  Reads that the C code would perform outside the
message buffer (undefined behaviour) are modelled by a distinguished `oob`
result.
-/

namespace Ripples

/-! ## Constants from rip_ns_utils.h and constants.h -/

def RIP_NS_PACKETSZ : Nat := 512
def RIP_NS_UDP_MAXMSG : Nat := 4096
def RIP_NS_MAXMSG : Nat := 65535
def RIP_NS_MAXCDNAME : Nat := 255
def RIP_NS_MAXLABEL : Nat := 63
def RIP_NS_RRFIXEDSZ : Nat := 10
def RIP_NS_INADDRSZ : Nat := 4
def RIP_NS_IN6ADDRSZ : Nat := 16
def RIP_NS_CMPRSFLGS : Nat := 0xc0
def RIP_NS_CDNAME_COMP_BUF_LEN : Nat := 256
def DNS_RESPONSE_COMPRESSED_NAMES_MAX : Nat := 64
def VL_RESOURCE_NOTIFY_WAIT_TIME_MAX : Nat := 1000000000

def rip_ns_t_a : Nat := 1
def rip_ns_t_opt : Nat := 41
def rip_ns_c_in : Nat := 1
def rip_ns_ext_opt_c_cs : Nat := 8

def rip_ns_r_noerror : Int := 0
def rip_ns_r_formerr : Int := 1
def rip_ns_r_notimpl : Int := 4
def rip_ns_r_badvers : Int := 16
def rip_ns_r_rip_unknown : Int := -1
def rip_ns_r_rip_shortheader : Int := -2
def rip_ns_r_rip_toolarge : Int := -3
def rip_ns_r_rip_query_tc : Int := -4
def rip_ns_r_rip_tcp_write_err : Int := -6
def rip_ns_r_rip_tcp_write_close : Int := -7

/-- On Linux EAGAIN and EWOULDBLOCK share the value 11. -/
def EAGAIN : Int := 11
def EWOULDBLOCK : Int := 11

/-! ## Byte helpers (RIP_NS_GET16 / rip_ns_put16) -/

/-- Read one byte at `i`; bytes beyond the list are read as 0 only where the
value provably cannot influence the result (noted at each use site). -/
def byteAt (buf : List Nat) (i : Nat) : Nat := buf.getD i 0

/-- RIP_NS_GET16: big-endian 16-bit load at offset `i`. -/
def get16 (buf : List Nat) (i : Nat) : Nat :=
  byteAt buf i * 256 + byteAt buf (i + 1)

/-- rip_ns_put16 / RIP_NS_PUT16: big-endian bytes of the low 16 bits of `n`. -/
def be16 (n : Nat) : List Nat := [n / 256 % 256, n % 256]

/-! ## Wire codec: rip_ns_name_ntop (rip_ns_utils.c) -/

/-- `special` from rip_ns_utils.c: characters needing a backslash escape. -/
def special (ch : Nat) : Bool :=
  ch = 34 || ch = 46 || ch = 59 || ch = 92 || ch = 40 || ch = 41 || ch = 64 || ch = 36

/-- `printable` from rip_ns_utils.c. -/
def printable (ch : Nat) : Bool := 0x20 < ch && ch < 0x7f

inductive NtopRes where
  | ok (s : List Nat)
  | err
  | oob
deriving DecidableEq, Repr

/-- The loop of rip_ns_name_ntop, fused over one byte of `src` per step.
`k` counts the characters still to emit from the current label (`k = 0`
means the next byte is a label length).  `dn` is the output accumulated so
far (`dn = []` iff `dn == dst` in the C code).  Returns `oob` when the C
code would read source bytes past the end of the buffer. -/
def ntopGo : Nat → List Nat → List Nat → Nat → NtopRes
  | _, [], _, _ => .oob
  | 0, l :: rest, dn, dstsiz =>
    if l = 0 then
      -- end of the while loop: root gets ".", then the NUL is written
      if dn = [] then
        if dn.length ≥ dstsiz then .err
        else if ([46] : List Nat).length ≥ dstsiz then .err
        else .ok [46]
      else if dn.length ≥ dstsiz then .err
      else .ok dn
    else if l ≥ 64 then .err
    else if dn = [] then ntopGo l rest dn dstsiz
    else if dn.length ≥ dstsiz then .err
    else ntopGo l rest (dn ++ [46]) dstsiz
  | k + 1, c :: rest, dn, dstsiz =>
    if special c then
      if dstsiz < dn.length + 2 then .err
      else ntopGo k rest (dn ++ [92, c]) dstsiz
    else if !printable c then
      if dstsiz < dn.length + 4 then .err
      else ntopGo k rest (dn ++ [92, 48 + c / 100, 48 + c % 100 / 10, 48 + c % 10]) dstsiz
    else
      if dstsiz < dn.length + 2 then .err
      else ntopGo k rest (dn ++ [c]) dstsiz

/-- rip_ns_name_ntop: decode a wire-format name to printable ASCII.
`ok s` returns the C string contents without the NUL terminator (the C
return value is `s.length`). -/
def rip_ns_name_ntop (src : List Nat) (dstsiz : Nat) : NtopRes :=
  ntopGo 0 src [] dstsiz

/-! ## Wire codec: rip_ns_name_pton (rip_ns_utils.c) -/

inductive PtonRes where
  | ok (fq : Nat) (dst : List Nat)
  | err
deriving DecidableEq, Repr

def isDigitByte (c : Nat) : Bool := 48 ≤ c && c ≤ 57

/-- The final block of rip_ns_name_pton, reached when the source string ends
(the NUL terminator in C corresponds to the end of the list, or an explicit
0 element).  `completed` holds the finalized label bytes already written to
`dst`; `cur` holds the characters of the still-open label.  The positions of
the C pointers are `label = completed.length` and
`bp = completed.length + 1 + cur.length`. -/
def ptonFinish (completed cur : List Nat) (dstsiz : Nat) : PtonRes :=
  let c := cur.length
  if c &&& RIP_NS_CMPRSFLGS ≠ 0 then .err
  else if completed.length ≥ dstsiz then .err
  else
    let dst := completed ++ [c % 256] ++ cur
    if c ≠ 0 then
      if completed.length + 1 + cur.length ≥ dstsiz then .err
      else if dst.length + 1 > RIP_NS_MAXCDNAME then .err
      else .ok 0 (dst ++ [0])
    else
      if dst.length > RIP_NS_MAXCDNAME then .err
      else .ok 0 dst

/-- The while loop of rip_ns_name_pton.  One step consumes the source
character(s) exactly as the C code does (an escape consumes the backslash
plus one literal or three digits).  A 0 byte is the C string
terminator. -/
def ptonGo : List Nat → List Nat → List Nat → Nat → PtonRes
  | [], completed, cur, dstsiz => ptonFinish completed cur dstsiz
  | c :: rest, completed, cur, dstsiz =>
    if c = 0 then ptonFinish completed cur dstsiz
    else if c = 92 then
      match rest with
      | [] => .err            -- trailing backslash
      | e :: rest1 =>
        if e = 0 then .err    -- string ends right after the backslash
        else if isDigitByte e then
          match rest1 with
          | [] => .err
          | d2 :: rest2 =>
            if d2 = 0 || !isDigitByte d2 then .err
            else
              match rest2 with
              | [] => .err
              | d3 :: rest3 =>
                if d3 = 0 || !isDigitByte d3 then .err
                else
                  let n := (e - 48) * 100 + (d2 - 48) * 10 + (d3 - 48)
                  if n > 255 then .err
                  else if completed.length + 1 + cur.length ≥ dstsiz then .err
                  else ptonGo rest3 completed (cur ++ [n % 256]) dstsiz
        else
          -- escaped literal character
          if completed.length + 1 + cur.length ≥ dstsiz then .err
          else ptonGo rest1 completed (cur ++ [e % 256]) dstsiz
    else if c = 46 then
      -- end of a label
      let cl := cur.length
      if cl &&& RIP_NS_CMPRSFLGS ≠ 0 then .err
      else if completed.length ≥ dstsiz then .err
      else
        let dst := completed ++ [cl % 256] ++ cur
        if rest = [] || rest.headD 1 = 0 then
          -- fully qualified name
          if cl ≠ 0 then
            if completed.length + 1 + cur.length ≥ dstsiz then .err
            else if dst.length + 1 > RIP_NS_MAXCDNAME then .err
            else .ok 1 (dst ++ [0])
          else
            if dst.length > RIP_NS_MAXCDNAME then .err
            else .ok 1 dst
        else if cl = 0 || rest.headD 0 = 46 then .err
        else ptonGo rest dst [] dstsiz
    else
      if completed.length + 1 + cur.length ≥ dstsiz then .err
      else ptonGo rest completed (cur ++ [c % 256]) dstsiz

/-- rip_ns_name_pton: encode a printable ASCII domain name (given as the
bytes of the C string, without the NUL terminator) to wire format.
`ok fq dst` returns the C result (1 if fully qualified, 0 otherwise) and the
bytes written to the destination buffer. -/
def rip_ns_name_pton (src : List Nat) (dstsiz : Nat) : PtonRes :=
  ptonGo src [] [] dstsiz

/-! ## EDNS Client Subnet parsing: query_parse_edns_ext_cs (query_parse.c) -/

structure EdnsCs where
  edns_cs_valid : Bool := false
  family : Nat := 0
  source_mask : Nat := 0
  scope_mask : Nat := 0
  /-- bytes memcpy'd into the sockaddr address field -/
  addr : List Nat := []
deriving DecidableEq, Repr

/-- Tail of query_parse_edns_ext_cs after the family-specific memcpy:
the `source_mask % 8` / `addr_len` / trailing-bits checks.  `comp` is read
at offset `4 + addr_len - 1` of the option; when that offset lies past the
option the C code reads adjacent request bytes, but the value can only be
consulted on the success path where `addr_len = bytes_to_copy` places the
read inside the option, so a default of 0 is value-faithful. -/
def ednsCsChecks (buf : List Nat) (cs1 : EdnsCs)
    (family source_mask scope_mask bytes_to_copy : Nat) : Int × EdnsCs :=
  let r := source_mask % 8
  let addr_len0 := source_mask / 8
  let addr_len := if r > 0 then addr_len0 + 1 else addr_len0
  let comp := if r > 0 then byteAt buf (4 + addr_len - 1) else 0
  if addr_len ≠ bytes_to_copy then (-5, cs1)
  else if comp > 0 then
    let shift := (0xff <<< (8 - r)) % 256
    if shift &&& comp ≠ comp then (-6, cs1)
    else (0, { cs1 with edns_cs_valid := true, family := family,
                        source_mask := source_mask, scope_mask := scope_mask })
  else (0, { cs1 with edns_cs_valid := true, family := family,
                      source_mask := source_mask, scope_mask := scope_mask })

/-- query_parse_edns_ext_cs: parse one EDNS Client Subnet option given as the
`opt_len` bytes of the option payload.  `buf_len - 4` is assigned to a
`uint8_t` in the C code, hence the `% 256`. -/
def query_parse_edns_ext_cs (buf : List Nat) : Int × EdnsCs :=
  let buf_len := buf.length
  if buf_len < 4 then (-1, {}) else
  let family := get16 buf 0
  let source_mask := byteAt buf 2
  let scope_mask := byteAt buf 3
  let bytes_to_copy := (buf_len - 4) % 256
  if family = 1 then
    if source_mask > 32 || scope_mask ≠ 0 || bytes_to_copy > RIP_NS_INADDRSZ then (-2, {})
    else
      let cs1 : EdnsCs := { addr := (buf.drop 4).take bytes_to_copy }
      ednsCsChecks buf cs1 family source_mask scope_mask bytes_to_copy
  else if family = 2 then
    if source_mask > 128 || scope_mask ≠ 0 || bytes_to_copy > RIP_NS_IN6ADDRSZ then (-3, {})
    else
      let cs1 : EdnsCs := { addr := (buf.drop 4).take bytes_to_copy }
      ednsCsChecks buf cs1 family source_mask scope_mask bytes_to_copy
  else (-4, {})

/-! ## Wire codec: rip_ns_name_unpack (rip_ns_utils.c)

`msg` holds the readable bytes of the message buffer; a dereference at an
offset `≥ msg.length` is `oob`.  `eomOff` is the offset the `eom` pointer
argument carries; callers may pass a value beyond `msg.length` (one caller
computes it with a header-sized stride), and then the bounds checks compare
against `eomOff` while actual reads can leave the buffer. -/

inductive UnpackRes where
  | ok (len : Nat) (name : List Nat)
  | err
  | oob
deriving DecidableEq, Repr

/-- Loop body of rip_ns_name_unpack.  `lenMark` is `none` while the C `len`
variable is still `-1`.  `fuel` dominates the loop count: each plain-label
step appends at least two bytes to `dst` (bounded by `dstsiz`) and each
compression step adds 2 to `checked` (bounded by `eomOff`), so the wrapper
passes fuel that cannot be exhausted; exhaustion is reported as `oob`. -/
def unpackGo (msg : List Nat) (eomOff dstsiz srcStart : Nat) :
    Nat → Nat → Nat → Option Nat → List Nat → UnpackRes
  | 0, _, _, _, _ => .oob
  | fuel + 1, srcOff, checked, lenMark, dst =>
    if srcOff ≥ msg.length then .oob
    else
      let n := byteAt msg srcOff
      if n = 0 then
        .ok (lenMark.getD (srcOff + 1 - srcStart)) (dst ++ [0])
      else if n &&& RIP_NS_CMPRSFLGS = 0 then
        if n ≥ 64 then .err
        else if n + 1 ≥ dstsiz - dst.length then .err
        else if n ≥ eomOff - (srcOff + 1) then .err
        else if srcOff + n ≥ msg.length then .oob
        else unpackGo msg eomOff dstsiz srcStart fuel (srcOff + n + 1)
               (checked + n + 1) lenMark (dst ++ [n] ++ (msg.drop (srcOff + 1)).take n)
      else if n &&& RIP_NS_CMPRSFLGS = RIP_NS_CMPRSFLGS then
        if srcOff + 1 ≥ eomOff then .err
        else if srcOff + 1 ≥ msg.length then .oob
        else
          let lenMark1 := match lenMark with
            | some l => some l
            | none => some (srcOff + 2 - srcStart)
          let target := (n &&& 0x3f) * 256 + byteAt msg (srcOff + 1)
          if target ≥ eomOff then .err
          else if checked + 2 ≥ eomOff then .err
          else unpackGo msg eomOff dstsiz srcStart fuel target (checked + 2) lenMark1 dst
      else .err

/-- rip_ns_name_unpack: unpack a possibly compressed name starting at
`srcOff`. -/
def rip_ns_name_unpack (msg : List Nat) (eomOff srcOff dstsiz : Nat) : UnpackRes :=
  if srcOff ≥ eomOff then .err
  else unpackGo msg eomOff dstsiz srcOff (dstsiz + eomOff + 16) srcOff 0 none []

/-- rip_rr_name_get (rip_ns_utils.c): unpack then render to printable
ASCII.  Returns the consumed octet count together with the rendered label
and its length. -/
def rip_rr_name_get (msg : List Nat) (eomOff srcOff dstsiz : Nat) :
    Option (Nat × List Nat × Nat) ⊕ Unit :=
  match rip_ns_name_unpack msg eomOff srcOff 256 with
  | .oob => Sum.inr ()
  | .err => Sum.inl none
  | .ok len name =>
    match rip_ns_name_ntop name dstsiz with
    | .ok s => Sum.inl (some (len, s, s.length))
    | .err => Sum.inl none
    | .oob => Sum.inr ()

/-! ## Query state and request parsing (query_parse.c) -/

/-- rip_ns_rr_type_supported: the supported set is only rip_ns_t_a. -/
def rip_ns_rr_type_supported (query_type : Nat) : Bool := query_type = rip_ns_t_a

/-- rip_ns_rr_class_supported: only rip_ns_c_in. -/
def rip_ns_rr_class_supported (query_class : Nat) : Bool := query_class = rip_ns_c_in

structure Edns where
  edns_raw_off : Nat := 0
  edns_raw_buf_len : Nat := 0
  edns_valid : Bool := false
  extended_rcode : Nat := 0
  version : Nat := 0
  udp_resp_len : Nat := 0
  dnssec : Bool := false
  client_subnet : EdnsCs := {}
deriving DecidableEq, Repr

structure Query where
  end_code : Int := -1
  query_label : List Nat := []
  query_label_len : Nat := 0
  query_q_type : Nat := 0
  query_q_class : Nat := 0
  edns : Edns := {}
deriving DecidableEq, Repr

/-- query_parse_edns_ext: walk the EDNS option list between `bufOff` and the
inclusive end offset `eobufOff`.  `none` in the first component signals a
format error; `Sum.inr` an out-of-bounds read.  The option slice handed to
the client-subnet parser must lie inside the readable message, otherwise
the C code would read undefined bytes and `oob` is reported. -/
def ednsExtGo (msg : List Nat) (eobufOff : Nat) :
    Nat → Nat → Query → (Option Query) ⊕ Unit
  | 0, _, _ => Sum.inr ()
  | fuel + 1, bufOff, q =>
    if bufOff < eobufOff then
      if bufOff + 3 > eobufOff then Sum.inl none
      else if bufOff + 3 ≥ msg.length then Sum.inr ()
      else
        let opt_code := get16 msg bufOff
        let opt_len := get16 msg (bufOff + 2)
        let bufOff1 := bufOff + 4
        if bufOff1 + opt_len ≥ eobufOff + 2 then Sum.inl none
        else if opt_code = rip_ns_ext_opt_c_cs then
          if bufOff1 + opt_len > msg.length then Sum.inr ()
          else
            let slice := (msg.drop bufOff1).take opt_len
            let r := query_parse_edns_ext_cs slice
            let q1 := { q with edns := { q.edns with client_subnet := r.2 } }
            if r.1 ≠ 0 then Sum.inl none
            else ednsExtGo msg eobufOff fuel (bufOff1 + opt_len) q1
        else ednsExtGo msg eobufOff fuel (bufOff1 + opt_len) q
    else Sum.inl (some q)

def query_parse_edns_ext (msg : List Nat) (bufOff eobufOff : Nat) (q : Query) :
    (Option Query) ⊕ Unit :=
  ednsExtGo msg eobufOff (eobufOff + 16) bufOff q

inductive AddlRes where
  | ok (consumed : Nat) (q : Query)
  | errq (q : Query)
  | oob
deriving DecidableEq, Repr

/-- Loop of query_parse_request_rr_additional_edns.  `eomOff` is the offset
of the `eom` pointer this function computes: the source adds
`request_buffer_len - 1` to the `rip_ns_header_t *` request pointer, so the
offset is scaled by the 12-byte header size. -/
def addlGo (msg : List Nat) (eomOff startOff : Nat) :
    Nat → Nat → Nat → Query → AddlRes
  | 0, _, _, _ => .oob
  | fuel + 1, ptr, rr_count, q =>
    if ptr < eomOff then
      match rip_ns_name_unpack msg eomOff ptr 256 with
      | .oob => .oob
      | .err => .errq { q with end_code := rip_ns_r_formerr }
      | .ok unpack name =>
        let ptr1 := ptr + unpack
        let skipRR : AddlRes :=
          -- not the OPT record: skip it (note the second addition of
          -- `unpack`, as in the source)
          let ptr2 := ptr1 + unpack + 8
          if ptr2 + 1 > eomOff then
            .errq { q with end_code := rip_ns_r_formerr }
          else if ptr2 + 1 ≥ msg.length then .oob
          else
            let rdata_len := get16 msg ptr2
            addlGo msg eomOff startOff fuel (ptr2 + 2 + rdata_len) (rr_count + 1) q
        if ptr1 ≥ eomOff || ptr1 + RIP_NS_RRFIXEDSZ - 1 > eomOff then
          .errq { q with end_code := rip_ns_r_formerr }
        else if !(unpack = 1 && name = [0]) then skipRR
        else if ptr1 + 1 ≥ msg.length then .oob
        else if get16 msg ptr1 = rip_ns_t_opt then
          -- found the OPT record
          let ptr2 := ptr1 + 2
          if ptr2 + 1 ≥ msg.length then .oob
          else
            let udp0 := get16 msg ptr2
            let udp1 := if udp0 < RIP_NS_PACKETSZ then RIP_NS_PACKETSZ
                        else if udp0 > RIP_NS_UDP_MAXMSG then RIP_NS_UDP_MAXMSG
                        else udp0
            let ptr3 := ptr2 + 2
            -- the version is read from the byte at ptr3, which is the
            -- first TTL octet (the extended-rcode field of the OPT TTL)
            if ptr3 ≥ msg.length then .oob
            else
              let version := byteAt msg ptr3
              let q1 := { q with edns := { q.edns with udp_resp_len := udp1,
                                                       version := version } }
              if version ≠ 0 then
                .errq { q1 with
                  edns := { q1.edns with udp_resp_len := 512 },
                  end_code := rip_ns_r_badvers }
              else
                let ptr4 := ptr3 + 2
                if ptr4 ≥ msg.length then .oob
                else
                  let dnssec := byteAt msg ptr4 &&& 0x80 = 0x80
                  let q2 := { q1 with edns := { q1.edns with dnssec := dnssec || q1.edns.dnssec } }
                  let ptr5 := ptr4 + 2
                  if ptr5 + 1 ≥ msg.length then .oob
                  else
                    let rdata_len := get16 msg ptr5
                    let ptr6 := ptr5 + 2
                    if rdata_len > 0 then
                      if ptr6 ≥ eomOff || ptr6 + rdata_len - 1 > eomOff then
                        .errq { q2 with end_code := rip_ns_r_formerr }
                      else
                        match query_parse_edns_ext msg ptr6 (ptr6 + rdata_len - 1) q2 with
                        | Sum.inr () => .oob
                        | Sum.inl none => .errq { q2 with end_code := rip_ns_r_formerr }
                        | Sum.inl (some q3) =>
                          let q4 := { q3 with edns := { q3.edns with
                            edns_raw_off := ptr,
                            edns_raw_buf_len := unpack + RIP_NS_RRFIXEDSZ + rdata_len,
                            edns_valid := true } }
                          if rr_count ≠ get16 msg 6 then
                            .errq { q4 with end_code := rip_ns_r_formerr }
                          else .ok (ptr6 - startOff) q4
                    else
                      let q4 := { q2 with edns := { q2.edns with
                        edns_raw_off := ptr,
                        edns_raw_buf_len := unpack + RIP_NS_RRFIXEDSZ + rdata_len,
                        edns_valid := true } }
                      if rr_count ≠ get16 msg 6 then
                        .errq { q4 with end_code := rip_ns_r_formerr }
                      else .ok (ptr6 - startOff) q4
        else skipRR
    else
      if rr_count ≠ get16 msg 6 then
        .errq { q with end_code := rip_ns_r_formerr }
      else .ok (ptr - startOff) q

/-- query_parse_request_rr_additional_edns.  The count check after the loop
compares `rr_count` against the header's ancount (`ntohs(ancount)` reads
the big-endian 16-bit value at offset 6), exactly as the source does. -/
def query_parse_request_rr_additional_edns (msg : List Nat) (startOff : Nat)
    (q : Query) : AddlRes :=
  let eomOff := 12 * (msg.length - 1)
  if startOff + RIP_NS_RRFIXEDSZ > eomOff then
    .errq { q with end_code := rip_ns_r_formerr }
  else addlGo msg eomOff startOff (eomOff + 16) startOff 0 q

/-- query_parse_request_rr_question: decode the question name, type and
class.  `Sum.inr` reports an out-of-bounds read. -/
def query_parse_request_rr_question (msg : List Nat) (q : Query) :
    (Int × Query) ⊕ Unit :=
  let eomOff := msg.length - 1
  match rip_rr_name_get msg eomOff 12 256 with
  | Sum.inr () => Sum.inr ()
  | Sum.inl none => Sum.inl (-1, { q with end_code := rip_ns_r_formerr })
  | Sum.inl (some (unpack, label, label_len)) =>
    let q1 := { q with query_label := label, query_label_len := label_len }
    let ptr := 12 + unpack
    if ptr + 3 > eomOff then Sum.inl (-1, { q1 with end_code := rip_ns_r_formerr })
    else
      let qt := get16 msg ptr
      let q2 := { q1 with query_q_type := qt }
      if !rip_ns_rr_type_supported qt then
        Sum.inl (-1, { q2 with end_code := rip_ns_r_notimpl })
      else
        let qc := get16 msg (ptr + 2)
        let q3 := { q2 with query_q_class := qc }
        if !rip_ns_rr_class_supported qc then
          Sum.inl (-1, { q3 with end_code := rip_ns_r_notimpl })
        else Sum.inl ((unpack : Int) + 4, q3)

/-- query_parse: parse a DNS request held in `req` (the
`request_buffer_len` readable bytes).  `none` means the C code performed an
out-of-bounds read (undefined behaviour). -/
def query_parse (req : List Nat) : Option Query :=
  let q0 : Query := { end_code := -1 }
  if req.length < 12 then some { q0 with end_code := rip_ns_r_rip_shortheader }
  else
    let b2 := byteAt req 2
    let tc := b2 / 2 % 2
    let opcode := b2 / 8 % 16
    let qr := b2 / 128 % 2
    if tc ≠ 0 then some { q0 with end_code := rip_ns_r_rip_query_tc }
    else if opcode ≠ 0 then some { q0 with end_code := rip_ns_r_notimpl }
    else if qr ≠ 0 then some { q0 with end_code := rip_ns_r_formerr }
    else if get16 req 4 ≠ 1 then
      if get16 req 4 = 0 then some { q0 with end_code := rip_ns_r_formerr }
      else some { q0 with end_code := rip_ns_r_notimpl }
    else if get16 req 6 ≠ 0 || get16 req 8 ≠ 0 then
      some { q0 with end_code := rip_ns_r_formerr }
    else
      match query_parse_request_rr_question req q0 with
      | Sum.inr () => none
      | Sum.inl (unpack, q1) =>
        if unpack < 0 then some q1
        else
          let ptr := 12 + unpack.toNat
          if get16 req 10 > 0 then
            match query_parse_request_rr_additional_edns req ptr q1 with
            | .oob => none
            | .errq q2 => some q2
            | .ok _ q2 => some q2
          else some q1

/-! ## Wire codec: rip_dn_find, rip_ns_name_pack, rip_ns_name_put
(rip_ns_utils.c)

`msg` is the response DNS message built so far (offset 0 is the response
header, matching `dnptrs[0]`); `dnptrs` holds the offsets of the names
stored for compression (the entries after slot 0).  Reads of `msg` use a
default of 0 beyond the end of the list; the loops below only stop on a 0
byte, a compression flag or an offset bound, exactly as the source. -/

inductive DnCmpRes where
  | matched
  | nomatch
  | illegal
deriving DecidableEq, Repr

/-- Inner comparison loop of rip_dn_find: compare the domain suffix at
`dnOff` with the message name at `cpOff`, following compression pointers.
`fuel` bounds pointer chains (the C code would cycle forever on a
pointer loop; exhaustion reports `illegal`, which aborts the search just
like an illegal label type). -/
def dnFindCmp (msg domain : List Nat) : Nat → Nat → Nat → DnCmpRes
  | 0, _, _ => .illegal
  | fuel + 1, dnOff, cpOff =>
    let n := byteAt msg cpOff
    if n = 0 then .nomatch
    else if n &&& RIP_NS_CMPRSFLGS = 0 then
      if n ≠ byteAt domain dnOff then .nomatch
      else if (domain.drop (dnOff + 1)).take n ≠ (msg.drop (cpOff + 1)).take n then .nomatch
      else if byteAt domain (dnOff + 1 + n) = 0 && byteAt msg (cpOff + 1 + n) = 0 then .matched
      else if byteAt domain (dnOff + 1 + n) ≠ 0 then
        dnFindCmp msg domain fuel (dnOff + 1 + n) (cpOff + 1 + n)
      else .nomatch
    else if n &&& RIP_NS_CMPRSFLGS = RIP_NS_CMPRSFLGS then
      dnFindCmp msg domain fuel dnOff ((n &&& 0x3f) * 256 + byteAt msg (cpOff + 1))
    else .illegal

inductive DnWalkRes where
  | found (off : Nat)
  | notfound
  | abort
deriving DecidableEq, Repr

/-- Middle loop of rip_dn_find: try to match the domain suffix starting at
each label of the stored name at `spOff`. -/
def dnFindWalk (msg domain : List Nat) (dnStart : Nat) : Nat → Nat → DnWalkRes
  | 0, _ => .abort
  | fuel + 1, spOff =>
    let s := byteAt msg spOff
    if s ≠ 0 && s &&& RIP_NS_CMPRSFLGS = 0 && spOff < 0x4000 then
      match dnFindCmp msg domain (msg.length + domain.length + 64) dnStart spOff with
      | .matched => .found spOff
      | .illegal => .abort
      | .nomatch => dnFindWalk msg domain dnStart fuel (spOff + s + 1)
    else .notfound

/-- rip_dn_find: search the stored names for the domain suffix starting at
`dnStart`.  Returns the offset to point at, or `none` (the C code returns
-1 both when nothing matches and on an illegal label type; the caller
treats both identically). -/
def rip_dn_find (domain : List Nat) (dnStart : Nat) (msg : List Nat) :
    List Nat → Option Nat
  | [] => none
  | sp :: rest =>
    match dnFindWalk msg domain dnStart 0x4001 sp with
    | .found off => some off
    | .abort => none
    | .notfound => rip_dn_find domain dnStart msg rest

/-- Legality pre-pass of rip_ns_name_pack: every label below 64 bytes and
the total at most RIP_NS_MAXCDNAME. -/
def namePackLegal : Nat → List Nat → Nat → Bool
  | 0, _, _ => false
  | _ + 1, [], _ => false
  | fuel + 1, n :: rest, l =>
    if n ≥ 64 then false
    else if l + n + 1 > RIP_NS_MAXCDNAME then false
    else if n = 0 then true
    else namePackLegal fuel (rest.drop n) (l + n + 1)

/-- Main loop of rip_ns_name_pack.  `src` is the remaining suffix of the
wire-format name, `written` the bytes emitted so far for this name,
`dstsiz` the space available at `dst` (`eob - dst`), `first` the flag that
allows storing at most the position of the whole name.  `none` is the
cleanup path (C return -1), on which the entries stored during this call
are removed again (`*lpp = NULL`), so the caller keeps its original table.
The C return value on success is the number of bytes written, i.e. the
length of the first component. -/
def namePackGo (msg : List Nat) (dstsiz : Nat) :
    Nat → List Nat → List Nat → List Nat → Bool → Option (List Nat × List Nat)
  | 0, _, _, _, _ => none
  | _ + 1, [], _, _, _ => none
  | fuel + 1, n :: rest, written, dnptrs, first =>
    if n ≠ 0 then
      match rip_dn_find (n :: rest) 0 msg dnptrs with
      | some l =>
        if dstsiz - written.length ≤ 1 then none
        else some (written ++ [(l / 256) ||| RIP_NS_CMPRSFLGS, l % 256], dnptrs)
      | none =>
        let store := dnptrs.length + 1 < DNS_RESPONSE_COMPRESSED_NAMES_MAX - 2
          && msg.length + written.length < 0x4000 && first
        let dnptrs1 := if store then dnptrs ++ [msg.length + written.length] else dnptrs
        if n ≥ 64 then none
        else if n + 1 > dstsiz - written.length then none
        else if rest.length < n then none
        else namePackGo msg dstsiz fuel (rest.drop n)
               (written ++ [n] ++ rest.take n) dnptrs1 false
    else
      if 1 > dstsiz - written.length then none
      else some (written ++ [0], dnptrs)

/-- rip_ns_name_pack, in the instantiation the server uses: `dnptrs` is
the compression table of the current response with slot 0 holding the
response header (`msg` offset 0) and `lastdnptr` pointing at the end of
the 64-entry array. -/
def rip_ns_name_pack (src msg : List Nat) (dstsiz : Nat) (dnptrs : List Nat) :
    Option (List Nat × List Nat) :=
  if !namePackLegal (src.length + 1) src 0 then none
  else namePackGo msg dstsiz (src.length + 1) src [] dnptrs true

/-- rip_ns_name_put: convert the C-string name to wire format
(rip_ns_name_pton with a 256-byte buffer) and pack it. -/
def rip_ns_name_put (srcName msg : List Nat) (dstsiz : Nat) (dnptrs : List Nat) :
    Option (List Nat × List Nat) :=
  match rip_ns_name_pton srcName RIP_NS_CDNAME_COMP_BUF_LEN with
  | .err => none
  | .ok _ compressed => rip_ns_name_pack compressed msg dstsiz dnptrs

/-! ## Response serialization: query_pack.c -/

def be32 (n : Nat) : List Nat :=
  [n / 2 ^ 24 % 256, n / 2 ^ 16 % 256, n / 256 % 256, n % 256]

/-- Write the big-endian 16-bit value `v` at offset `i` of `l` (the effect
of an `htons` store to a 16-bit header field). -/
def set16At (l : List Nat) (i v : Nat) : List Nat :=
  (l.set i (v / 256 % 256)).set (i + 1) (v % 256)

structure RRRec where
  /-- owner name as the bytes of its C string -/
  name : List Nat
  rtype : Nat
  rclass : Nat
  ttl : Nat
  /-- rdata bytes; `rdata_len` is its length (a uint16 in the source) -/
  rdata : List Nat
deriving DecidableEq, Repr

/-- query_pack_rr with `name = NULL` (all call sites in
query_response_pack pass NULL, so `rr->name` is used).  Returns the C
return value, the bytes appended at `buf`, and the updated compression
table. -/
def query_pack_rr (rr : RRRec) (msg : List Nat) (buf_len : Nat)
    (dnptrs : List Nat) : Int × List Nat × List Nat :=
  match rip_ns_name_put rr.name msg buf_len dnptrs with
  | none => (-3, [], dnptrs)
  | some (nameBytes, dnptrs1) =>
    let packed_len := nameBytes.length + RIP_NS_RRFIXEDSZ + rr.rdata.length
    if packed_len > buf_len then (-3, [], dnptrs1)
    else
      let bytes := nameBytes ++ be16 rr.rtype ++ be16 rr.rclass ++ be32 rr.ttl
                   ++ be16 rr.rdata.length ++ rr.rdata
      ((packed_len : Int), bytes, dnptrs1)

/-- query_pack_edns: append the OPT pseudo-RR when `edns_valid` is set.
Returns the C return value and the bytes written. -/
def query_pack_edns (buf_len : Nat) (edns : Edns) : Int × List Nat :=
  if !edns.edns_valid then (0, [])
  else
    let cs := edns.client_subnet
    let cs_ip_len := if cs.edns_cs_valid then
        cs.source_mask / 8 + (if cs.source_mask % 8 > 0 then 1 else 0) else 0
    let cs_opt_len := if cs.edns_cs_valid then 4 + cs_ip_len else 0
    let opts_len := 1 + RIP_NS_RRFIXEDSZ + (if cs.edns_cs_valid then 4 + cs_opt_len else 0)
    if buf_len < opts_len then (-1, [])
    else
      let base := [0] ++ be16 rip_ns_t_opt ++ be16 edns.udp_resp_len
                  ++ [edns.extended_rcode % 256, 0, edns.dnssec.toNat * 2 ^ 7, 0]
                  ++ be16 (opts_len - 1 - RIP_NS_RRFIXEDSZ)
      let csBytes := if cs.edns_cs_valid then
          be16 rip_ns_ext_opt_c_cs ++ be16 cs_opt_len ++ be16 cs.family
          ++ [cs.source_mask % 256, cs.scope_mask % 256]
          ++ ((cs.addr ++ List.replicate cs_ip_len 0).take cs_ip_len)
        else []
      ((opts_len : Int), base ++ csBytes)

structure PackQuery where
  /-- 0 = UDP, 1 = TCP -/
  protocol : Nat
  /-- the two id bytes of the request header (copied verbatim) -/
  request_id : List Nat
  /-- the rd bit of the request header -/
  request_rd : Nat
  end_code : Int
  answer_section : List RRRec
  authority_section : List RRRec
  additional_section : List RRRec
  edns : Edns
  response_buffer_size : Nat
deriving DecidableEq, Repr

structure SectionState where
  msg : List Nat
  used : Nat
  dnptrs : List Nat
  /-- instrumentation: how many records of this section were serialized -/
  packed : Nat
  failed : Bool
deriving DecidableEq, Repr

/-- One `for` loop of query_response_pack over a record section.  `size` is
`response_buffer_size`; the available space handed to query_pack_rr is the
`uint16_t` truncation of `size - rrs_packed_len`. -/
def packSectionGo (size : Nat) : List RRRec → SectionState → SectionState
  | [], st => st
  | rr :: rest, st =>
    if st.failed then st
    else
      let buf_len := (size - st.used) % 65536
      let r := query_pack_rr rr st.msg buf_len st.dnptrs
      if r.1 < 0 then { st with failed := true }
      else
        packSectionGo size rest
          { msg := st.msg ++ r.2.1, used := st.used + r.1.toNat,
            dnptrs := r.2.2, packed := st.packed + 1, failed := false }

/-- The response header, viewed through its struct fields.  The C code
accesses the same twelve bytes both as `rip_ns_header_t` fields and as raw
buffer bytes; the model keeps both views and updates them together.  The
16-bit counts are stored through `htons`, i.e. the field holds the
wire-order count, recorded here as its numeric (host) value. -/
structure RespHeader where
  id : List Nat := [0, 0]
  rd : Nat := 0
  tc : Nat := 0
  aa : Nat := 0
  opcode : Nat := 0
  qr : Nat := 0
  rcode : Nat := 0
  qdcount : Nat := 0
  ancount : Nat := 0
  nscount : Nat := 0
  arcount : Nat := 0
deriving DecidableEq, Repr

structure PackOut where
  ret : Int
  /-- the response header fields -/
  hdr : RespHeader
  /-- the DNS message bytes, starting at the response header -/
  msg : List Nat
  /-- the full response buffer contents (TCP: 2-byte prefix then message) -/
  response_buffer : List Nat
  response_buffer_len : Nat
  /-- rrs_packed_len -/
  dnsLen : Nat
  additional_count : Nat
  answers_serialized : Nat
  authorities_serialized : Nat
  additionals_serialized : Nat
  failed_in_answer : Bool
  failed_in_authority : Bool
deriving DecidableEq, Repr

/-- The END block of query_response_pack: store `arcount`, record the
response length, and for TCP write the 2-byte length prefix at the start
of the response buffer (the truncation to `uint16_t` of
`response_buffer_len`) and add 2 to the length. -/
def packFinish (q : PackQuery) (hdr : RespHeader) (msg : List Nat)
    (used addl ansP authP addlP : Nat) (fa fau : Bool) (ret : Int) : PackOut :=
  let hdr1 := { hdr with arcount := addl % 65536 }
  let msg1 := set16At msg 10 (addl % 65536)
  let response_buffer := if q.protocol = 1 then be16 (used % 65536) ++ msg1 else msg1
  let response_buffer_len := if q.protocol = 1 then used + 2 else used
  { ret := ret, hdr := hdr1, msg := msg1, response_buffer := response_buffer,
    response_buffer_len := response_buffer_len, dnsLen := used,
    additional_count := addl, answers_serialized := ansP,
    authorities_serialized := authP, additionals_serialized := addlP,
    failed_in_answer := fa, failed_in_authority := fau }

/-- `resp_hdr->rcode = q->end_code` runs only when `end_code < 16`; the
4-bit bit-field keeps the low bits. -/
def packRcode (q : PackQuery) : Nat :=
  if q.end_code < 16 then (q.end_code % 16).toNat else 0

/-- `q->edns.extended_rcode = (q->end_code >> 4)` runs when
`end_code ≥ 16`; the uint8_t field keeps the low byte. -/
def packExtendedRcode (q : PackQuery) : Nat :=
  if q.end_code < 16 then q.edns.extended_rcode
  else ((q.end_code / 16) % 256).toNat

/-- The 12 header bytes after the initial memset and field assignments:
byte 2 holds rd | aa<<2 | qr<<7 (tc and opcode are 0), byte 3 the rcode
nibble, all counts 0. -/
def packInitMsg (q : PackQuery) : List Nat :=
  [q.request_id.headD 0, q.request_id.getD 1 0, q.request_rd % 2 + 4 + 128,
   packRcode q, 0, 0, 0, 0, 0, 0, 0, 0]

/-- The header fields after the same assignments. -/
def packInitHdr (q : PackQuery) : RespHeader :=
  { id := [q.request_id.headD 0, q.request_id.getD 1 0], rd := q.request_rd % 2,
    tc := 0, aa := 1, opcode := 0, qr := 1, rcode := packRcode q,
    qdcount := 0, ancount := 0, nscount := 0, arcount := 0 }

/-- State after `resp_hdr->ancount = htons(...)` and the answer loop. -/
def packSt1 (q : PackQuery) : SectionState :=
  packSectionGo q.response_buffer_size q.answer_section
    { msg := set16At (packInitMsg q) 6 (q.answer_section.length % 65536),
      used := 12, dnptrs := [], packed := 0, failed := false }

/-- State after `resp_hdr->nscount = htons(...)` and the authority loop
(reached only when the answer loop did not fail; `packSectionGo` leaves a
failed state unchanged, so the definition is total). -/
def packSt2 (q : PackQuery) : SectionState :=
  packSectionGo q.response_buffer_size q.authority_section
    { packSt1 q with
      msg := set16At (packSt1 q).msg 8 (q.authority_section.length % 65536),
      packed := 0 }

/-- State after the additional-section loop. -/
def packSt3 (q : PackQuery) : SectionState :=
  packSectionGo q.response_buffer_size q.additional_section
    { packSt2 q with packed := 0 }

/-- The EDNS append attempted after the three sections. -/
def packEdnsRes (q : PackQuery) : Int × List Nat :=
  query_pack_edns ((q.response_buffer_size - (packSt3 q).used) % 65536)
    { q.edns with extended_rcode := packExtendedRcode q }

/-- query_response_pack.  The header is memset to zero and the fields are
assigned exactly as in the source (the little-endian bit-field layout makes
byte 2 hold rd | tc<<1 | aa<<2 | opcode<<3 | qr<<7 and byte 3 hold the
rcode in its low nibble); `qdcount` is never written and stays 0.  The
section counts ancount and nscount are stored into the header before the
corresponding loops run; `arcount` is stored at END from the
`additional_section_count` field, which only the successful EDNS append
increments. -/
def query_response_pack (q : PackQuery) : PackOut :=
  let hdrA := { packInitHdr q with ancount := q.answer_section.length % 65536 }
  let st1 := packSt1 q
  if st1.failed then
    packFinish q { hdrA with tc := 1 } (st1.msg.set 2 (byteAt st1.msg 2 ||| 2))
      st1.used q.additional_section.length st1.packed 0 0 true false (-1)
  else
    let hdrN := { hdrA with nscount := q.authority_section.length % 65536 }
    let st2 := packSt2 q
    if st2.failed then
      packFinish q { hdrN with tc := 1 } (st2.msg.set 2 (byteAt st2.msg 2 ||| 2))
        st2.used q.additional_section.length st1.packed st2.packed 0 false true (-1)
    else
      let st3 := packSt3 q
      if st3.failed then
        packFinish q { hdrN with tc := 1 } (st3.msg.set 2 (byteAt st3.msg 2 ||| 2))
          st3.used q.additional_section.length st1.packed st2.packed st3.packed
          false false (-1)
      else
        let e := packEdnsRes q
        if e.1 < 0 then
          packFinish q { hdrN with tc := 1 } (st3.msg.set 2 (byteAt st3.msg 2 ||| 2))
            st3.used q.additional_section.length st1.packed st2.packed st3.packed
            false false (-1)
        else
          let addl := q.additional_section.length + (if e.1 > 0 then 1 else 0)
          packFinish q hdrN (st3.msg ++ e.2) (st3.used + e.1.toNat) addl
            st1.packed st2.packed st3.packed false false 0

/-! ## TCP accept stage: vl_fn_tcp_accept_conns (vectorloop.c)

The kernel side is abstracted by `pending`, the number of connections
waiting in the listener backlog: `accept4` succeeds exactly while
`pending > 0`.  The happy path is modelled (client and local socket
families are valid, id assignment succeeds), which is the path that
creates connection objects and increments `conns_tcp_active`. -/

structure AcceptCfg where
  tcp_conns_per_vl_max : Nat
  tcp_listener_max_accept_new_conn : Nat
deriving DecidableEq, Repr

/-- The inner `while ((fd = accept4(...)) > -1 && accept_count < cfg->...)`
loop.  Note the loop bound is `tcp_listener_max_accept_new_conn` alone; the
computed `accept_max` does not appear in the loop condition.  Returns
(new active count, accept_count, remaining backlog). -/
def tcpAcceptLoop (cfg : AcceptCfg) : Nat → Nat → Nat → Nat × Nat × Nat
  | 0, accept_count, active => (active, accept_count, 0)
  | pending + 1, accept_count, active =>
    if accept_count < cfg.tcp_listener_max_accept_new_conn then
      tcpAcceptLoop cfg pending (accept_count + 1) (active + 1)
    else
      -- accept4 already succeeded but the loop exits without processing
      (active, accept_count, pending)

/-- vl_fn_tcp_accept_conns, for one listener dequeued from the accept queue.
`accept_max` is computed exactly as in the source and is returned so the
post-loop re-enqueue test can be stated, but the loop itself never
consults it. -/
def vl_fn_tcp_accept_conns (cfg : AcceptCfg) (active pending : Nat) :
    Nat × Nat × Nat × Int :=
  let accept_max0 : Int := (cfg.tcp_conns_per_vl_max : Int) - (active : Int)
  let accept_max : Int :=
    if accept_max0 > (cfg.tcp_listener_max_accept_new_conn : Int) then
      (cfg.tcp_listener_max_accept_new_conn : Int)
    else accept_max0
  let r := tcpAcceptLoop cfg pending 0 active
  (r.1, r.2.1, r.2.2, accept_max)

/-! ## TCP write stage: vl_fn_tcp_write (vectorloop.c)

One connection dequeued from the TCP write queue.  The network is
abstracted by `writes`, the successive return values of the `write` system
call (`-1` stands for a failed call; the C code never inspects `errno` in
this function, so the errno value is irrelevant to the model). -/

inductive TcpConnState where
  | waitForQueryData
  | waitForQuery
  | waitForWrite
  | closedForRead
  | closedForWrite
  | readErr
  | writeErr
  | assignConnIdErr
  | querySizeTooLarge
deriving DecidableEq, Repr

structure TcpWriteQuery where
  end_code : Int
  response_buffer_len : Nat
deriving DecidableEq, Repr

structure TcpWriteConn where
  queries : List TcpWriteQuery
  query_write_index : Nat
  write_index : Nat
  state : TcpConnState
  waiting_for_write : Bool
deriving DecidableEq, Repr

structure TcpWriteOutcome where
  conn : TcpWriteConn
  /-- re-enqueued into the TCP write queue for the next iteration -/
  requeued : Bool
  /-- moved on to the query-log queue -/
  toLogQueue : Bool
deriving DecidableEq, Repr

/-- The `for (int i = conn_tcp->query_write_index; ...)` loop of
vl_fn_tcp_write.  `qs` is the suffix of the query array starting at index
`i`.  Mirrors the branch structure of the source, including the comparison
of the `write` return value itself against EAGAIN/EWOULDBLOCK. -/
def tcpWriteLoop (writes : List Int) (i : Nat) (qs : List TcpWriteQuery)
    (conn : TcpWriteConn) : TcpWriteOutcome :=
  match qs with
  | [] => { conn := conn, requeued := false, toLogQueue := true }
  | q :: rest =>
    if q.end_code ≥ 0 then
      let write_len : Int := (q.response_buffer_len : Int) - (conn.write_index : Int)
      let ret : Int := writes.headD (-1)
      let writes' := writes.tail
      if ret = write_len then
        tcpWriteLoop writes' (i + 1) rest { conn with write_index := 0 }
      else if ret > 0 then
        -- partial write: remember position, requeue, done = true
        { conn := { conn with write_index := conn.write_index + ret.toNat,
                              query_write_index := i },
          requeued := true, toLogQueue := false }
      else if ret < 0 then
        if ret = EAGAIN || ret = EWOULDBLOCK then
          -- unreachable: ret < 0 while EAGAIN = EWOULDBLOCK = 11 > 0
          { conn := conn, requeued := false, toLogQueue := false }
        else
          { conn := { conn with
              state := TcpConnState.writeErr,
              queries := conn.queries.set i { q with end_code := rip_ns_r_rip_tcp_write_err } },
            requeued := false, toLogQueue := true }
      else
        { conn := { conn with
            state := TcpConnState.closedForWrite,
            queries := conn.queries.set i { q with end_code := rip_ns_r_rip_tcp_write_close } },
          requeued := false, toLogQueue := true }
    else
      tcpWriteLoop writes (i + 1) rest conn

/-- vl_fn_tcp_write for one connection. -/
def vl_fn_tcp_write (writes : List Int) (conn : TcpWriteConn) : TcpWriteOutcome :=
  tcpWriteLoop writes conn.query_write_index
    (conn.queries.drop conn.query_write_index) conn

/-! ## Resource worker wait state: resource_loop (ripples.c)

The `WAIT_FOR_RESOURCE_UPDATE` arm of the resource loop.  `acked` abstracts
`resource_vls_notified` (true once every shard has acknowledged). -/

structure ResWaitState where
  /-- vectorloop_update_wait_time -/
  wait_time : Nat
  /-- a fatal message has been sent on the application-log channel -/
  fatal_logged : Bool
  /-- the state machine has moved on to GET_NEXT_RESOURCE -/
  done : Bool
  /-- nanoseconds slept so far by this wait loop -/
  slept_ns : Nat
deriving DecidableEq, Repr

/-- One execution of the WAIT_FOR_RESOURCE_UPDATE case.  When not all
shards have acknowledged, the code compares `wait_time` against
VL_RESOURCE_NOTIFY_WAIT_TIME_MAX and then sleeps 1000 ns; no statement
ever increments `wait_time`. -/
def resourceWaitStep (acked : Bool) (s : ResWaitState) : ResWaitState :=
  if s.done then s
  else if acked then { s with done := true }
  else
    let s1 := if s.wait_time > VL_RESOURCE_NOTIFY_WAIT_TIME_MAX then
                { s with fatal_logged := true } else s
    { s1 with slept_ns := s1.slept_ns + 1000 }

/-- The wait loop run for `n` iterations against shards that never
acknowledge. -/
def resourceWaitIter : Nat → ResWaitState
  | 0 => { wait_time := 0, fatal_logged := false, done := false, slept_ns := 0 }
  | n + 1 => resourceWaitStep false (resourceWaitIter n)

/-! ## Connection FIFO queues and the release stage (conn.c, vectorloop.c)

Queues hold connection ids; the intrusive `in_read_queue` /
`in_write_queue` / `in_release_queue` flags live in a map from id to
flags. -/

structure ConnQFlags where
  in_read_queue : Bool := false
  in_write_queue : Bool := false
  in_release_queue : Bool := false
deriving DecidableEq, Repr

/-- The drain-and-reinsert loop shared by conn_fifo_remove_from_read_queue
and conn_fifo_remove_from_write_queue: dequeue from the head, re-enqueue
everything except `rm` at the tail of the same queue.  Because the C code
re-enqueues into the queue it is draining, the loop only terminates when
`rm` is the sole element; `fuel` bounds the modelled iterations and `none`
reports a loop that did not finish (the C code would spin forever). -/
def fifoDrainLoop (fuel : Nat) (q : List Nat) (rm : Nat) : Option (List Nat) :=
  match fuel with
  | 0 => if q = [] then some [] else none
  | fuel + 1 =>
    match q with
    | [] => some []
    | c :: rest => if c = rm then fifoDrainLoop fuel rest rm
                   else fifoDrainLoop fuel (rest ++ [c]) rm

/-- conn_fifo_remove_from_read_queue: guarded by the connection's own
`in_read_queue` flag. -/
def conn_fifo_remove_from_read_queue (flags : Nat → ConnQFlags) (q : List Nat)
    (rm : Nat) : Option (List Nat) :=
  if (flags rm).in_read_queue then fifoDrainLoop (q.length * (q.length + 2)) q rm
  else some q

/-- conn_fifo_remove_from_write_queue: the guard tests the connection's
`in_read_queue` flag (this is what the source does), not
`in_write_queue`. -/
def conn_fifo_remove_from_write_queue (flags : Nat → ConnQFlags) (q : List Nat)
    (rm : Nat) : Option (List Nat) :=
  if (flags rm).in_read_queue then fifoDrainLoop (q.length * (q.length + 2)) q rm
  else some q

structure ReleaseState where
  read_queue : List Nat
  write_queue : List Nat
  release_queue : List Nat
  lru : List Nat
  flags : Nat → ConnQFlags

/-- vl_fn_tcp_conn_release processing of one connection dequeued from the
release queue: remove from the LRU, close the socket, scrub the read and
write queues, free.  `none` when one of the queue scrub loops does not
terminate. -/
def releaseOneConn (s : ReleaseState) (conn : Nat) : Option ReleaseState := do
  let lru' := s.lru.filter (fun c => c ≠ conn)
  let flags1 := fun c => if c = conn then { s.flags conn with in_release_queue := false }
                         else s.flags c
  let rq ← conn_fifo_remove_from_read_queue flags1 s.read_queue conn
  let wq ← conn_fifo_remove_from_write_queue flags1 s.write_queue conn
  pure { s with lru := lru', read_queue := rq, write_queue := wq, flags := flags1 }

/-! ## Valid wire-format names and their printable rendering (for the
round-trip property of the codec) -/

/-- The wire-format encoding of a list of labels: each label is preceded by
its length byte and the name ends with the 0 (root) byte.  Every valid
uncompressed wire-format name is `encodeName L` for exactly one `L`. -/
def encodeName (L : List (List Nat)) : List Nat :=
  L.foldr (fun l acc => (l.length :: l) ++ acc) [0]

/-- Validity of the label list: each label is 1–63 bytes of byte values. -/
def GoodLabels (L : List (List Nat)) : Prop :=
  ∀ l ∈ L, 1 ≤ l.length ∧ l.length ≤ 63 ∧ ∀ c ∈ l, c < 256

instance : DecidablePred GoodLabels := fun L =>
  inferInstanceAs (Decidable (∀ l ∈ L, _ ∧ _ ∧ ∀ c ∈ l, c < 256))

/-- The printable rendering of one character, mirroring the emission cases
of rip_ns_name_ntop. -/
def renderChar (c : Nat) : List Nat :=
  if special c then [92, c]
  else if !printable c then [92, 48 + c / 100, 48 + c % 100 / 10, 48 + c % 10]
  else [c]

def renderLabel (l : List Nat) : List Nat := (l.map renderChar).flatten

/-- Rendering of the non-first labels, each preceded by the dot
separator. -/
def renderTail (L : List (List Nat)) : List Nat :=
  (L.map (fun l => 46 :: renderLabel l)).flatten

/-- The expected output of rip_ns_name_ntop on `encodeName L`. -/
def renderName (L : List (List Nat)) : List Nat :=
  match L with
  | [] => [46]
  | l :: rest => renderLabel l ++ renderTail rest

/-! ## Concrete inputs used to evaluate the model -/

/-- A valid question (A IN www.example.com) followed by an OPT RR whose
EDNS version octet is 1 (TTL bytes 00 01 00 00, class 0x1000, rdlen 0):
the request of the BADVERS scenario. -/
def badversReq : List Nat :=
  [0x1f, 0xf9, 0x01, 0x20, 0x00, 0x01, 0x00, 0x00, 0x00, 0x00, 0x00, 0x01,
   0x03, 0x77, 0x77, 0x77, 0x07, 0x65, 0x78, 0x61, 0x6d, 0x70, 0x6c, 0x65,
   0x03, 0x63, 0x6f, 0x6d, 0x00, 0x00, 0x01, 0x00, 0x01,
   0x00, 0x00, 0x29, 0x10, 0x00, 0x00, 0x01, 0x00, 0x00, 0x00, 0x00]

/-- The same request with the first TTL octet (the extended-rcode field)
set to 1: the only shape that makes the version test fire. -/
def badversReqExt : List Nat :=
  [0x1f, 0xf9, 0x01, 0x20, 0x00, 0x01, 0x00, 0x00, 0x00, 0x00, 0x00, 0x01,
   0x03, 0x77, 0x77, 0x77, 0x07, 0x65, 0x78, 0x61, 0x6d, 0x70, 0x6c, 0x65,
   0x03, 0x63, 0x6f, 0x6d, 0x00, 0x00, 0x01, 0x00, 0x01,
   0x00, 0x00, 0x29, 0x10, 0x00, 0x01, 0x01, 0x00, 0x00, 0x00, 0x00]

/-- The query state a BADVERS request leaves behind (end_code 16, EDNS not
valid, advertised size forced to 512), handed to the pack stage with the
empty sections the skipped resolver leaves. -/
def badversPackQuery : PackQuery :=
  { protocol := 0, request_id := [0x1f, 0xf9], request_rd := 1,
    end_code := rip_ns_r_badvers,
    answer_section := [], authority_section := [], additional_section := [],
    edns := { edns_valid := false, udp_resp_len := 512 },
    response_buffer_size := RIP_NS_UDP_MAXMSG }

/-- A well-formed request whose header has arcount = 1 and whose additional
section holds exactly one non-OPT RR (A, class IN, ttl 0, rdlen 4). -/
def c3Req : List Nat :=
  [0x1f, 0xf9, 0x01, 0x20, 0x00, 0x01, 0x00, 0x00, 0x00, 0x00, 0x00, 0x01,
   0x03, 0x77, 0x77, 0x77, 0x07, 0x65, 0x78, 0x61, 0x6d, 0x70, 0x6c, 0x65,
   0x03, 0x63, 0x6f, 0x6d, 0x00, 0x00, 0x01, 0x00, 0x01,
   0x00, 0x00, 0x01, 0x00, 0x01, 0x00, 0x00, 0x00, 0x00, 0x00, 0x04,
   0x7f, 0x00, 0x00, 0x01]

/-- A 260-byte Client Subnet option: family 1 (IPv4), source mask 0, scope
mask 0, followed by 256 address bytes. -/
def csBugOpt : List Nat := [0, 1, 0, 0] ++ List.replicate 256 7

/-- A shard already holding `tcp_conns_per_vl_max` = 2 active connections,
with one more connection pending in the listener backlog. -/
def c2Cfg : AcceptCfg :=
  { tcp_conns_per_vl_max := 2, tcp_listener_max_accept_new_conn := 8 }

/-- A connection with one packed response of 14 bytes pending, in state
WAIT_FOR_WRITE, whose single `write` call fails with
EAGAIN/EWOULDBLOCK (returning -1). -/
def c4Conn : TcpWriteConn :=
  { queries := [{ end_code := 0, response_buffer_len := 14 }],
    query_write_index := 0, write_index := 0,
    state := TcpConnState.waitForWrite, waiting_for_write := false }

/-- Release-stage state for a connection (id 7) that sits in the shard's
TCP write queue only: its `in_write_queue` flag is set,
`in_read_queue` is clear, and it has been enqueued for release. -/
def c6State : ReleaseState :=
  { read_queue := [], write_queue := [7], release_queue := [7], lru := [7],
    flags := fun c => if c = 7 then
        { in_read_queue := false, in_write_queue := true, in_release_queue := true }
      else {} }

def c7Wq : PackQuery :=
  { protocol := 1, request_id := [171, 205], request_rd := 1, end_code := 0,
    answer_section := [], authority_section := [], additional_section := [],
    edns := {}, response_buffer_size := 1542 }

def c10Rr : RRRec :=
  { name := [97], rtype := 1, rclass := 1, ttl := 300, rdata := [10, 0, 0, 1] }

def c10Wq : PackQuery :=
  { protocol := 0, request_id := [0, 42], request_rd := 0, end_code := 0,
    answer_section := [c10Rr, c10Rr], authority_section := [],
    additional_section := [], edns := {}, response_buffer_size := 14 }

/-! ## Verification of the specification claims -/

/-- C1: the EDNS version handling diverges from the BADVERS behaviour the
specification describes.  The version octet the parser reads is the first
TTL byte (the extended-rcode field), so the canonical version=1 request
`badversReq` parses as version 0 with a valid EDNS record (end_code -1,
version 0, advertised size 4096, not 512).  When the misread octet is
nonzero (`badversReqExt`) the BADVERS branch does fire, but it leaves
`edns_valid` false, so the packed response carries header rcode 0 (byte 3
of the message) and no OPT RR at all (`additional_count = 0`): no
extended rcode and no advertised size reach the wire. -/
theorem claim_C1 :
    (query_parse badversReq).map
        (fun q => (q.end_code, q.edns.edns_valid, q.edns.version, q.edns.udp_resp_len))
      = some (-1, true, 0, 4096)
    ∧ (query_parse badversReqExt).map
        (fun q => (q.end_code, q.edns.edns_valid, q.edns.udp_resp_len))
      = some (rip_ns_r_badvers, false, 512)
    ∧ (query_response_pack badversPackQuery).msg
      = [0x1f, 0xf9, 133, 0, 0, 0, 0, 0, 0, 0, 0, 0]
    ∧ (query_response_pack badversPackQuery).additional_count = 0 :=
  ⟨rfl, rfl, rfl, rfl⟩

/-- C2: the accept loop's condition tests only the per-iteration cap
`tcp_listener_max_accept_new_conn`; the computed `accept_max`
(`tcp_conns_per_vl_max - conns_tcp_active`) never appears in it.  With
`tcp_conns_per_vl_max = 2`, two connections already active and one pending
in the backlog, the stage accepts the pending connection and the active
count reaches 3, exceeding the configured maximum although `accept_max`
was 0. -/
theorem claim_C2 :
    (vl_fn_tcp_accept_conns c2Cfg 2 1).1 = 3
    ∧ (vl_fn_tcp_accept_conns c2Cfg 2 1).2.2.2 = 0
    ∧ c2Cfg.tcp_conns_per_vl_max = 2 :=
  ⟨rfl, rfl, rfl⟩

/-- C3: a well-formed request whose additional section holds exactly
`arcount = 1` non-OPT records does not parse cleanly: it ends with
FORMERR, because the post-loop record-count check compares against the
header's ancount (offset 6), not its arcount (offset 10). -/
theorem claim_C3 :
    (query_parse c3Req).map (fun q => q.end_code) = some rip_ns_r_formerr
    ∧ get16 c3Req 10 = 1
    ∧ get16 c3Req 6 = 0 :=
  ⟨rfl, rfl, rfl⟩

/-- C4: in the TCP write stage a would-blocked `write` (return -1, errno
EAGAIN/EWOULDBLOCK) is not treated as a readiness request: the code
compares the -1 return value itself against EAGAIN/EWOULDBLOCK (= 11), the
comparison can never hold, and the connection falls into the terminal
CONN_STATE_TCP_WRITE_ERR branch with `waiting_for_write` never set. -/
theorem claim_C4 :
    (vl_fn_tcp_write [-1] c4Conn).conn.state = TcpConnState.writeErr
    ∧ (vl_fn_tcp_write [-1] c4Conn).conn.waiting_for_write = false
    ∧ (vl_fn_tcp_write [-1] c4Conn).toLogQueue = true :=
  ⟨rfl, rfl, rfl⟩

/-- C5: however many iterations the resource worker spends waiting for
shard acknowledgments, `vectorloop_update_wait_time` stays 0 (no statement
increments it), so the fatal-abort branch is unreachable and no fatal
message is ever logged; each iteration sleeps 1000 ns.  Moreover the
comparison limit VL_RESOURCE_NOTIFY_WAIT_TIME_MAX is 10^9 — one second in
the nanosecond units of the counter, not the ten seconds the specification
states. -/
theorem claim_C5 (n : Nat) :
    (resourceWaitIter n).wait_time = 0
    ∧ (resourceWaitIter n).fatal_logged = false
    ∧ (resourceWaitIter n).done = false
    ∧ (resourceWaitIter n).slept_ns = 1000 * n
    ∧ VL_RESOURCE_NOTIFY_WAIT_TIME_MAX = 1000000000 := by
  induction n with
  | zero => exact ⟨rfl, rfl, rfl, rfl, rfl⟩
  | succ k ih =>
    obtain ⟨h1, h2, h3, h4, -⟩ := ih
    rcases hS : resourceWaitIter k with ⟨w, f, d, sl⟩
    rw [hS] at h1 h2 h3 h4
    simp only at h1 h2 h3 h4
    subst h1; subst h2; subst h3; subst h4
    simp only [resourceWaitIter, hS]
    refine ⟨?_, ?_, ?_, ?_, rfl⟩
    all_goals simp [resourceWaitStep, VL_RESOURCE_NOTIFY_WAIT_TIME_MAX]
    omega

theorem claim_C5_witness :
    (resourceWaitIter 3).wait_time = 0
    ∧ (resourceWaitIter 3).fatal_logged = false
    ∧ (resourceWaitIter 3).done = false
    ∧ (resourceWaitIter 3).slept_ns = 1000 * 3
    ∧ VL_RESOURCE_NOTIFY_WAIT_TIME_MAX = 1000000000 :=
  claim_C5 3

/-- C6: releasing a connection that sits only in the TCP write FIFO leaves
it in that FIFO: conn_fifo_remove_from_write_queue is guarded by the
connection's `in_read_queue` flag, which is clear, so the scrub of the
write queue is skipped and the released (freed) connection id 7 is still
queued for the write stage. -/
theorem claim_C6 :
    (releaseOneConn c6State 7).map (fun s => (s.write_queue, s.read_queue, s.lru))
      = some ([7], [], [])
    ∧ (c6State.flags 7).in_write_queue = true
    ∧ (c6State.flags 7).in_read_queue = false :=
  ⟨rfl, rfl, rfl⟩

set_option maxRecDepth 4096 in
/-- C8: a 260-byte Client Subnet option (family 1, source mask 0, scope 0,
followed by 256 address bytes) is accepted: `bytes_to_copy` is computed as
`buf_len - 4` truncated to a uint8_t, which wraps 256 to 0, so the
`addr_len == bytes_to_copy` check passes although the option carries 256
address bytes where `ceil(source/8) = 0` are allowed. -/
theorem claim_C8 :
    (query_parse_edns_ext_cs csBugOpt).1 = 0
    ∧ (query_parse_edns_ext_cs csBugOpt).2.edns_cs_valid = true
    ∧ (query_parse_edns_ext_cs csBugOpt).2.source_mask = 0
    ∧ csBugOpt.length = 260 := by
  refine ⟨?_, ?_, ?_, ?_⟩ <;> rfl

/-! ## Response-buffer layout lemmas (query_response_pack) -/

theorem set16At_length (l : List Nat) (i v : Nat) :
    (set16At l i v).length = l.length := by
  simp [set16At]

theorem query_pack_rr_le (rr : RRRec) (msg : List Nat) (buf_len : Nat) (dnptrs : List Nat)
    (h : 0 ≤ (query_pack_rr rr msg buf_len dnptrs).1) :
    (query_pack_rr rr msg buf_len dnptrs).1.toNat ≤ buf_len
    ∧ (query_pack_rr rr msg buf_len dnptrs).2.1.length
      = (query_pack_rr rr msg buf_len dnptrs).1.toNat := by
  rcases hnp : rip_ns_name_put rr.name msg buf_len dnptrs with _ | ⟨nameBytes, dnptrs1⟩
  · simp [query_pack_rr, hnp] at h
  · by_cases hpl : nameBytes.length + RIP_NS_RRFIXEDSZ + rr.rdata.length > buf_len
    · simp [query_pack_rr, hnp, hpl] at h
    · simp only [query_pack_rr, hnp, hpl, if_false]
      refine ⟨by simp; omega, ?_⟩
      simp [be16, be32, RIP_NS_RRFIXEDSZ]
      omega

theorem query_pack_edns_le (buf_len : Nat) (e : Edns)
    (h : 0 ≤ (query_pack_edns buf_len e).1) :
    (query_pack_edns buf_len e).1.toNat ≤ buf_len
    ∧ (query_pack_edns buf_len e).2.length = (query_pack_edns buf_len e).1.toNat := by
  by_cases hv : e.edns_valid
  · by_cases hcs : e.client_subnet.edns_cs_valid
    all_goals
      simp only [query_pack_edns, hv, hcs, Bool.not_true, Bool.not_false, if_true, if_false,
        Bool.false_eq_true, Bool.true_eq_false] at h ⊢
    all_goals split_ifs at h ⊢ with h1
    all_goals simp_all [be16, List.length_take, RIP_NS_RRFIXEDSZ]
    all_goals omega
  · simp [query_pack_edns, hv]

theorem packSectionGo_failed (size : Nat) (rrs : List RRRec) (st : SectionState)
    (h : st.failed = true) : packSectionGo size rrs st = st := by
  cases rrs with
  | nil => rfl
  | cons rr rest => simp [packSectionGo, h]

theorem packSectionGo_inv (size : Nat) (rrs : List RRRec) :
    ∀ st : SectionState, st.msg.length = st.used → st.used ≤ max size 12 →
      (packSectionGo size rrs st).msg.length = (packSectionGo size rrs st).used
      ∧ (packSectionGo size rrs st).used ≤ max size 12 := by
  induction rrs with
  | nil => intro st h1 h2; exact ⟨h1, h2⟩
  | cons rr rest ih =>
    intro st h1 h2
    by_cases hf : st.failed
    · simp [packSectionGo, hf, h1, h2]
    · simp only [packSectionGo, hf, Bool.false_eq_true, if_false]
      by_cases hneg : (query_pack_rr rr st.msg ((size - st.used) % 65536) st.dnptrs).1 < 0
      · simp [hneg, h1, h2]
      · push_neg at hneg
        have hle := query_pack_rr_le rr st.msg ((size - st.used) % 65536) st.dnptrs hneg
        simp only [if_neg (by omega : ¬ (query_pack_rr rr st.msg ((size - st.used) % 65536) st.dnptrs).1 < 0)]
        apply ih
        · simp [h1, hle.2]
        · have hmod : (size - st.used) % 65536 ≤ size - st.used := Nat.mod_le _ _
          simp only
          omega

theorem packSectionGo_packed_lt (size : Nat) (rrs : List RRRec) :
    ∀ st : SectionState, st.failed = false →
      (packSectionGo size rrs st).failed = true →
      (packSectionGo size rrs st).packed < st.packed + rrs.length := by
  induction rrs with
  | nil =>
    intro st h1 h2
    rw [packSectionGo_failed size [] st (by rw [← h2]; rfl)] at h2
    rw [h2] at h1
    cases h1
  | cons rr rest ih =>
    intro st h1 h2
    simp only [packSectionGo, h1, Bool.false_eq_true, if_false, List.length_cons] at h2 ⊢
    by_cases hneg : (query_pack_rr rr st.msg ((size - st.used) % 65536) st.dnptrs).1 < 0
    · simp [hneg]
    · simp only [if_neg hneg] at h2 ⊢
      have := ih _ rfl h2
      simp only at this
      omega

theorem packSectionGo_packed_all (size : Nat) (rrs : List RRRec) :
    ∀ st : SectionState, (packSectionGo size rrs st).failed = false →
      (packSectionGo size rrs st).packed = st.packed + rrs.length := by
  induction rrs with
  | nil => intro st _; simp [packSectionGo]
  | cons rr rest ih =>
    intro st h
    by_cases hf : st.failed
    · rw [packSectionGo_failed size _ st hf] at h
      rw [h] at hf
      cases hf
    · simp only [packSectionGo, hf, Bool.false_eq_true, if_false, List.length_cons] at h ⊢
      by_cases hneg : (query_pack_rr rr st.msg ((size - st.used) % 65536) st.dnptrs).1 < 0
      · simp [hneg] at h
      · simp only [if_neg hneg] at h ⊢
        have := ih _ h
        simp only at this
        omega

theorem packSt1_inv (q : PackQuery) :
    (packSt1 q).msg.length = (packSt1 q).used
    ∧ (packSt1 q).used ≤ max q.response_buffer_size 12 := by
  unfold packSt1
  apply packSectionGo_inv
  · simp [set16At_length, packInitMsg]
  · simp only
    omega

theorem packSt2_inv (q : PackQuery) :
    (packSt2 q).msg.length = (packSt2 q).used
    ∧ (packSt2 q).used ≤ max q.response_buffer_size 12 := by
  have h1 := packSt1_inv q
  unfold packSt2
  apply packSectionGo_inv
  · simpa [set16At_length] using h1.1
  · exact h1.2

theorem packSt3_inv (q : PackQuery) :
    (packSt3 q).msg.length = (packSt3 q).used
    ∧ (packSt3 q).used ≤ max q.response_buffer_size 12 := by
  have h2 := packSt2_inv q
  unfold packSt3
  apply packSectionGo_inv
  · exact h2.1
  · exact h2.2

theorem packSt1_packed_lt (q : PackQuery) (h : (packSt1 q).failed = true) :
    (packSt1 q).packed < q.answer_section.length := by
  unfold packSt1 at h ⊢
  have := packSectionGo_packed_lt q.response_buffer_size q.answer_section _ rfl h
  simpa using this

theorem packSt1_packed_all (q : PackQuery) (h : (packSt1 q).failed = false) :
    (packSt1 q).packed = q.answer_section.length := by
  unfold packSt1 at h ⊢
  have := packSectionGo_packed_all q.response_buffer_size q.answer_section _ h
  simpa using this

theorem packSt2_packed_lt (q : PackQuery) (h1 : (packSt1 q).failed = false)
    (h : (packSt2 q).failed = true) :
    (packSt2 q).packed < q.authority_section.length := by
  unfold packSt2 at h ⊢
  have := packSectionGo_packed_lt q.response_buffer_size q.authority_section _
    (by simp [h1]) h
  simpa using this

theorem query_response_pack_inv (q : PackQuery) :
    (query_response_pack q).msg.length = (query_response_pack q).dnsLen
    ∧ (query_response_pack q).dnsLen ≤ max q.response_buffer_size 12 := by
  have h1 := packSt1_inv q
  have h2 := packSt2_inv q
  have h3 := packSt3_inv q
  simp only [query_response_pack]
  split_ifs with hf1 hf2 hf3 he
  · refine ⟨?_, ?_⟩
    · simp [packFinish, set16At_length, h1.1]
    · simpa [packFinish] using h1.2
  · refine ⟨?_, ?_⟩
    · simp [packFinish, set16At_length, h2.1]
    · simpa [packFinish] using h2.2
  · refine ⟨?_, ?_⟩
    · simp [packFinish, set16At_length, h3.1]
    · simpa [packFinish] using h3.2
  · refine ⟨?_, ?_⟩
    · simp [packFinish, set16At_length, h3.1]
    · simpa [packFinish] using h3.2
  all_goals
    have hnn : (0 : Int) ≤ (packEdnsRes q).1 := Int.not_lt.mp he
  all_goals
    have hq := query_pack_edns_le ((q.response_buffer_size - (packSt3 q).used) % 65536)
      { q.edns with extended_rcode := packExtendedRcode q } hnn
  all_goals
    have hlen : (packEdnsRes q).2.length = (packEdnsRes q).1.toNat := hq.2
  all_goals
    have hub : (packEdnsRes q).1.toNat
        ≤ (q.response_buffer_size - (packSt3 q).used) % 65536 := hq.1
  all_goals
    have hmod : (q.response_buffer_size - (packSt3 q).used) % 65536
        ≤ q.response_buffer_size - (packSt3 q).used := Nat.mod_le _ _
  all_goals refine ⟨?_, ?_⟩
  all_goals simp only [packFinish]
  · simp [set16At_length, h3.1, hlen]
  · have h32 := h3.2
    omega
  · simp [set16At_length, h3.1, hlen]
  · have h32 := h3.2
    omega

theorem query_response_pack_tcp (q : PackQuery) (hp : q.protocol = 1) :
    (query_response_pack q).response_buffer
      = be16 ((query_response_pack q).dnsLen % 65536) ++ (query_response_pack q).msg
    ∧ (query_response_pack q).response_buffer_len = (query_response_pack q).dnsLen + 2 := by
  simp only [query_response_pack]
  split_ifs
  all_goals simp [packFinish, hp]

/-- C7: for a TCP query, after packing, the first two response-buffer bytes
are the big-endian length of the DNS message that follows and the recorded
response length is that message length plus two. -/
theorem claim_C7 (q : PackQuery) (hp : q.protocol = 1)
    (hsz : q.response_buffer_size ≤ 65535) :
    (query_response_pack q).response_buffer
      = be16 (query_response_pack q).msg.length ++ (query_response_pack q).msg
    ∧ (query_response_pack q).response_buffer_len
      = (query_response_pack q).msg.length + 2 := by
  have hi := query_response_pack_inv q
  have ht := query_response_pack_tcp q hp
  have hlt : (query_response_pack q).dnsLen < 65536 := by
    have := hi.2
    omega
  constructor
  · rw [ht.1, hi.1, Nat.mod_eq_of_lt hlt]
  · rw [ht.2, hi.1]

theorem claim_C7_witness :
    (query_response_pack c7Wq).response_buffer
      = be16 (query_response_pack c7Wq).msg.length ++ (query_response_pack c7Wq).msg
    ∧ (query_response_pack c7Wq).response_buffer_len
      = (query_response_pack c7Wq).msg.length + 2 :=
  claim_C7 c7Wq rfl (by decide)

/-- C10: when packing fails for lack of space in the answer or authority
section, ret is -1 and TC is set, but the header ancount (and nscount for
an authority failure) keeps the full intended section count while strictly
fewer records were serialized into the body. -/
theorem claim_C10 (q : PackQuery)
    (h : (query_response_pack q).failed_in_answer = true
       ∨ (query_response_pack q).failed_in_authority = true) :
    (query_response_pack q).ret = -1
    ∧ (query_response_pack q).hdr.tc = 1
    ∧ (query_response_pack q).hdr.ancount = q.answer_section.length % 65536
    ∧ ((query_response_pack q).failed_in_answer = true →
        (query_response_pack q).answers_serialized < q.answer_section.length)
    ∧ ((query_response_pack q).failed_in_authority = true →
        (query_response_pack q).hdr.nscount = q.authority_section.length % 65536
        ∧ (query_response_pack q).authorities_serialized < q.authority_section.length
        ∧ (query_response_pack q).answers_serialized = q.answer_section.length) := by
  simp only [query_response_pack] at h ⊢
  split_ifs at h ⊢ with hf1 hf2 hf3 he
  · simp [packFinish]
    exact packSt1_packed_lt q hf1
  · have h1f : (packSt1 q).failed = false := by simpa using hf1
    simp [packFinish]
    exact ⟨packSt2_packed_lt q h1f hf2, packSt1_packed_all q h1f⟩
  all_goals simp [packFinish] at h

theorem claim_C10_witness :
    (query_response_pack c10Wq).ret = -1
    ∧ (query_response_pack c10Wq).hdr.tc = 1
    ∧ (query_response_pack c10Wq).hdr.ancount = c10Wq.answer_section.length % 65536
    ∧ (query_response_pack c10Wq).answers_serialized < c10Wq.answer_section.length :=
  ⟨(claim_C10 c10Wq (Or.inl rfl)).1, (claim_C10 c10Wq (Or.inl rfl)).2.1,
   (claim_C10 c10Wq (Or.inl rfl)).2.2.1, (claim_C10 c10Wq (Or.inl rfl)).2.2.2.1 rfl⟩

/-! ## Name-codec round-trip lemmas (rip_ns_name_ntop / rip_ns_name_pton) -/

theorem renderLabel_cons (c : Nat) (l : List Nat) :
    renderLabel (c :: l) = renderChar c ++ renderLabel l := by
  simp [renderLabel]

theorem renderTail_cons (l : List Nat) (L : List (List Nat)) :
    renderTail (l :: L) = 46 :: (renderLabel l ++ renderTail L) := by
  simp [renderTail]

theorem renderChar_length_le (c : Nat) : (renderChar c).length ≤ 4 := by
  unfold renderChar
  split_ifs <;> simp

theorem renderLabel_length_le (l : List Nat) :
    (renderLabel l).length ≤ 4 * l.length := by
  induction l with
  | nil => simp [renderLabel]
  | cons c cs ih =>
    rw [renderLabel_cons]
    simp only [List.length_append, List.length_cons]
    have := renderChar_length_le c
    omega

theorem renderChar_head (c : Nat) :
    ∃ h t, renderChar c = h :: t ∧ h ≠ 0 ∧ h ≠ 46 := by
  unfold renderChar
  split_ifs with h1 h2
  · exact ⟨92, [c], rfl, by omega, by omega⟩
  · exact ⟨92, _, rfl, by omega, by omega⟩
  · refine ⟨c, [], rfl, ?_, ?_⟩
    · simp [printable] at h2
      omega
    · simp [special] at h1
      omega

theorem renderLabel_head (l : List Nat) (hne : l ≠ []) :
    ∃ h t, renderLabel l = h :: t ∧ h ≠ 0 ∧ h ≠ 46 := by
  cases l with
  | nil => exact absurd rfl hne
  | cons c cs =>
    obtain ⟨h, t, he, h0, h46⟩ := renderChar_head c
    refine ⟨h, t ++ renderLabel cs, ?_, h0, h46⟩
    rw [renderLabel_cons, he]
    rfl

theorem encodeName_cons (l : List Nat) (L : List (List Nat)) :
    encodeName (l :: L) = l.length :: (l ++ encodeName L) := by
  simp [encodeName]

theorem encodeName_length_pos (L : List (List Nat)) :
    1 ≤ (encodeName L).length := by
  cases L <;> simp [encodeName]

theorem and192_eq_zero (n : Nat) (h : n < 64) : n &&& 192 = 0 := by
  interval_cases n <;> rfl

/-! ### Single-character steps of the pton loop on rendered characters -/

theorem pton_step_escape (c : Nat) (X completed cur : List Nat) (dstsiz : Nat)
    (h0 : ¬ (c = 0)) (hd : isDigitByte c = false)
    (hroom : ¬ (completed.length + 1 + cur.length ≥ dstsiz)) :
    ptonGo (92 :: c :: X) completed cur dstsiz
      = ptonGo X completed (cur ++ [c % 256]) dstsiz := by
  rw [ptonGo.eq_def]
  simp only [h0, hd, hroom, if_neg, if_false, Bool.not_false, if_true]
  simp

theorem pton_step_plain (c : Nat) (X completed cur : List Nat) (dstsiz : Nat)
    (h0 : ¬ (c = 0)) (h92 : ¬ (c = 92)) (h46 : ¬ (c = 46))
    (hroom : ¬ (completed.length + 1 + cur.length ≥ dstsiz)) :
    ptonGo (c :: X) completed cur dstsiz
      = ptonGo X completed (cur ++ [c % 256]) dstsiz := by
  rw [ptonGo.eq_def]
  simp only [h0, h92, h46, hroom, if_neg, if_false]

theorem pton_step_digits (c : Nat) (X completed cur : List Nat) (dstsiz : Nat)
    (hc : c < 256) (hroom : ¬ (completed.length + 1 + cur.length ≥ dstsiz)) :
    ptonGo (92 :: (48 + c / 100) :: (48 + c % 100 / 10) :: (48 + c % 10) :: X)
        completed cur dstsiz
      = ptonGo X completed (cur ++ [c % 256]) dstsiz := by
  have hd1 : isDigitByte (48 + c / 100) = true := by
    simp only [isDigitByte, Bool.and_eq_true, decide_eq_true_eq]
    omega
  have hd2 : ¬ (decide (48 + c % 100 / 10 = 0) || !isDigitByte (48 + c % 100 / 10)) = true := by
    simp [isDigitByte]
    omega
  have hd3 : ¬ (decide (48 + c % 10 = 0) || !isDigitByte (48 + c % 10)) = true := by
    simp [isDigitByte]
    omega
  have hn : (48 + c / 100 - 48) * 100 + (48 + c % 100 / 10 - 48) * 10
      + (48 + c % 10 - 48) = c := by
    omega
  have hgt : ¬ ((48 + c / 100 - 48) * 100 + (48 + c % 100 / 10 - 48) * 10
      + (48 + c % 10 - 48) > 255) := by
    omega
  rw [ptonGo.eq_def]
  simp only [hd1, hd2, hd3, hgt, hroom, if_neg, if_false, if_true, hn]
  simp [hn]
  exact fun hcontr => absurd hcontr (by omega)

theorem pton_step_char (c : Nat) (hc : c < 256) (X completed cur : List Nat)
    (dstsiz : Nat) (hroom : completed.length + 1 + cur.length < dstsiz) :
    ptonGo (renderChar c ++ X) completed cur dstsiz
      = ptonGo X completed (cur ++ [c]) dstsiz := by
  have hroom' : ¬ (completed.length + 1 + cur.length ≥ dstsiz) := by omega
  unfold renderChar
  split_ifs with hsp hpr
  · have h0 : ¬ (c = 0) := by
      simp only [special, Bool.or_eq_true, decide_eq_true_eq] at hsp
      omega
    have hd : isDigitByte c = false := by
      simp only [special, Bool.or_eq_true, decide_eq_true_eq] at hsp
      simp only [isDigitByte, Bool.and_eq_false_iff, decide_eq_false_iff_not]
      omega
    rw [show (([92, c] : List Nat) ++ X) = 92 :: c :: X from rfl]
    rw [pton_step_escape c X completed cur dstsiz h0 hd hroom', Nat.mod_eq_of_lt hc]
  · rw [show (([92, 48 + c / 100, 48 + c % 100 / 10, 48 + c % 10] : List Nat) ++ X)
        = 92 :: (48 + c / 100) :: (48 + c % 100 / 10) :: (48 + c % 10) :: X from rfl]
    rw [pton_step_digits c X completed cur dstsiz hc hroom', Nat.mod_eq_of_lt hc]
  · have hpr' : printable c = true := by
      cases hb : printable c with
      | false => exact absurd (by rw [hb]; rfl) hpr
      | true => rfl
    have h0 : ¬ (c = 0) := by
      simp only [printable, Bool.and_eq_true, decide_eq_true_eq] at hpr'
      omega
    have h92 : ¬ (c = 92) := by
      simp only [special, Bool.or_eq_true, decide_eq_true_eq] at hsp
      omega
    have h46 : ¬ (c = 46) := by
      simp only [special, Bool.or_eq_true, decide_eq_true_eq] at hsp
      omega
    rw [show ((c :: []) ++ X) = c :: X from rfl]
    rw [pton_step_plain c X completed cur dstsiz h0 h92 h46 hroom', Nat.mod_eq_of_lt hc]

theorem pton_label (l : List Nat) :
    ∀ (X completed cur : List Nat) (dstsiz : Nat), (∀ c ∈ l, c < 256) →
      completed.length + 1 + cur.length + l.length ≤ dstsiz →
      ptonGo (renderLabel l ++ X) completed cur dstsiz
        = ptonGo X completed (cur ++ l) dstsiz := by
  induction l with
  | nil =>
    intro X completed cur dstsiz _ _
    simp [renderLabel]
  | cons c cs ih =>
    intro X completed cur dstsiz hc hroom
    simp only [List.length_cons] at hroom
    rw [renderLabel_cons, List.append_assoc]
    rw [pton_step_char c (hc c (by simp)) _ completed cur dstsiz (by omega)]
    rw [ih _ completed (cur ++ [c]) dstsiz (fun x hx => hc x (by simp [hx]))
      (by simp only [List.length_append, List.length_cons, List.length_nil]; omega)]
    simp [List.append_assoc]

/-! ### The dot separator and the final block -/

theorem ptonFinish_ok (completed cur : List Nat)
    (h1 : 1 ≤ cur.length) (h63 : cur.length ≤ 63)
    (hroom : completed.length + 1 + cur.length + 1 ≤ 255) :
    ptonFinish completed cur 256
      = .ok 0 ((completed ++ [cur.length]) ++ cur ++ [0]) := by
  have hne : cur.length ≠ 0 := by omega
  unfold ptonFinish
  rw [if_neg (by
    simp only [RIP_NS_CMPRSFLGS]
    have h : cur.length &&& 192 = 0 := and192_eq_zero cur.length (by omega)
    simp [h])]
  rw [if_neg (by omega : ¬ (completed.length ≥ 256))]
  simp only [hne, reduceIte, Nat.mod_eq_of_lt (by omega : cur.length < 256)]
  rw [if_pos hne]
  rw [if_neg (by omega : ¬ (completed.length + 1 + cur.length ≥ 256))]
  rw [if_neg (by
    simp only [RIP_NS_MAXCDNAME, List.length_append, List.length_cons, List.length_nil]
    omega)]

theorem pton_step_dot (hh : Nat) (Y completed cur : List Nat)
    (hh0 : ¬ (hh = 0)) (hh46 : ¬ (hh = 46))
    (h1 : 1 ≤ cur.length) (h63 : cur.length ≤ 63)
    (hc1 : ¬ (completed.length ≥ 256)) :
    ptonGo (46 :: hh :: Y) completed cur 256
      = ptonGo (hh :: Y) ((completed ++ [cur.length]) ++ cur) [] 256 := by
  have hand : cur.length &&& RIP_NS_CMPRSFLGS = 0 := by
    rw [show RIP_NS_CMPRSFLGS = 192 from rfl]
    exact and192_eq_zero cur.length (by omega)
  rw [ptonGo.eq_def]
  have hg1 : ¬ ((decide ((hh :: Y) = [])) || (decide ((hh :: Y).headD 1 = 0))) = true := by
    simp only [List.headD_cons, Bool.or_eq_true, decide_eq_true_eq]
    push_neg
    exact ⟨by simp, hh0⟩
  have hg2 : ¬ ((decide (cur.length = 0)) || (decide ((hh :: Y).headD 0 = 46))) = true := by
    simp only [List.headD_cons, Bool.or_eq_true, decide_eq_true_eq]
    push_neg
    exact ⟨by omega, hh46⟩
  simp only [hand, ne_eq, not_true_eq_false, not_false_eq_true, reduceIte, hc1,
    hg1, hg2, if_neg, if_false, Nat.mod_eq_of_lt (by omega : cur.length < 256)]
  simp [List.append_assoc]

theorem pton_tail (L : List (List Nat)) (hL : GoodLabels L) :
    ∀ (completed cur : List Nat),
      1 ≤ cur.length → cur.length ≤ 63 →
      completed.length + 1 + cur.length + (encodeName L).length ≤ 255 →
      ptonGo (renderTail L) completed cur 256
        = .ok 0 ((completed ++ [cur.length]) ++ cur ++ encodeName L) := by
  induction L with
  | nil =>
    intro completed cur h1 h63 hroom
    have henc : (encodeName ([] : List (List Nat))).length = 1 := rfl
    rw [henc] at hroom
    show ptonFinish completed cur 256 = _
    rw [ptonFinish_ok completed cur h1 h63 hroom]
    rfl
  | cons l rest ih =>
    intro completed cur h1 h63 hroom
    have hl := hL l (by simp)
    have hLrest : GoodLabels rest := fun x hx => hL x (by simp [hx])
    have hlne : l ≠ [] := by
      intro h
      rw [h] at hl
      simp at hl
    obtain ⟨hh, ht, hhead, hh0, hh46⟩ := renderLabel_head l hlne
    have hencl : (encodeName (l :: rest)).length
        = 1 + l.length + (encodeName rest).length := by
      rw [encodeName_cons]
      simp only [List.length_cons, List.length_append]
      omega
    rw [hencl] at hroom
    have hencp := encodeName_length_pos rest
    show ptonGo (46 :: (renderLabel l ++ renderTail rest)) completed cur 256 = _
    rw [hhead, List.cons_append]
    rw [pton_step_dot hh (ht ++ renderTail rest) completed cur hh0 hh46 h1 h63
      (by omega)]
    rw [← List.cons_append, ← hhead]
    rw [pton_label l (renderTail rest) ((completed ++ [cur.length]) ++ cur) [] 256
      hl.2.2
      (by simp only [List.length_append, List.length_cons, List.length_nil]; omega)]
    rw [show (([] : List Nat) ++ l) = l from rfl]
    rw [ih hLrest ((completed ++ [cur.length]) ++ cur) l hl.1 hl.2.1
      (by simp only [List.length_append, List.length_cons, List.length_nil]; omega)]
    rw [encodeName_cons]
    simp [List.append_assoc]

theorem pton_renderName (L : List (List Nat)) (hL : GoodLabels L)
    (hlen : (encodeName L).length ≤ 255) :
    ∃ fq, rip_ns_name_pton (renderName L) 256 = .ok fq (encodeName L) := by
  cases L with
  | nil => exact ⟨1, rfl⟩
  | cons l rest =>
    have hl := hL l (by simp)
    have hLrest : GoodLabels rest := fun x hx => hL x (by simp [hx])
    have hencl : (encodeName (l :: rest)).length
        = 1 + l.length + (encodeName rest).length := by
      rw [encodeName_cons]
      simp only [List.length_cons, List.length_append]
      omega
    rw [hencl] at hlen
    refine ⟨0, ?_⟩
    unfold rip_ns_name_pton
    show ptonGo (renderLabel l ++ renderTail rest) [] [] 256 = _
    rw [pton_label l (renderTail rest) [] [] 256 hl.2.2 (by simp; omega)]
    rw [show (([] : List Nat) ++ l) = l from rfl]
    rw [pton_tail rest hLrest [] l hl.1 hl.2.1 (by simp; omega)]
    rw [encodeName_cons]
    simp

/-! ### The ntop loop on an encoded name -/

theorem ntop_step_char (k : Nat) (c : Nat) (X dn : List Nat) (dstsiz : Nat)
    (hroom : dn.length + 4 ≤ dstsiz) :
    ntopGo (k + 1) (c :: X) dn dstsiz = ntopGo k X (dn ++ renderChar c) dstsiz := by
  rw [ntopGo.eq_def]
  by_cases hsp : special c
  · rw [show renderChar c = [92, c] from by simp [renderChar, hsp]]
    simp only [hsp, reduceIte, if_true]
    rw [if_neg (by omega : ¬ (dstsiz < dn.length + 2))]
  · by_cases hpr : printable c
    · rw [show renderChar c = [c] from by simp [renderChar, hsp, hpr]]
      simp only [hsp, hpr, Bool.not_true, Bool.false_eq_true, if_false, reduceIte]
      rw [if_neg (by omega : ¬ (dstsiz < dn.length + 2))]
    · rw [show renderChar c = [92, 48 + c / 100, 48 + c % 100 / 10, 48 + c % 10] from by
        simp [renderChar, hsp, hpr]]
      simp only [hsp, hpr, Bool.not_false, Bool.false_eq_true, if_false, if_true, reduceIte]
      rw [if_neg (by omega : ¬ (dstsiz < dn.length + 4))]

theorem ntop_label (l : List Nat) :
    ∀ (X dn : List Nat) (dstsiz : Nat),
      dn.length + 4 * l.length ≤ dstsiz →
      ntopGo l.length (l ++ X) dn dstsiz = ntopGo 0 X (dn ++ renderLabel l) dstsiz := by
  induction l with
  | nil =>
    intro X dn dstsiz _
    simp [renderLabel]
  | cons c cs ih =>
    intro X dn dstsiz hroom
    simp only [List.length_cons] at hroom
    rw [show ((c :: cs) ++ X) = c :: (cs ++ X) from rfl]
    simp only [List.length_cons]
    rw [ntop_step_char cs.length c (cs ++ X) dn dstsiz (by omega)]
    rw [ih X (dn ++ renderChar c) dstsiz
      (by
        have := renderChar_length_le c
        simp only [List.length_append]
        omega)]
    rw [renderLabel_cons]
    simp [List.append_assoc]

theorem ntop_step_sep (n : Nat) (X dn : List Nat) (dstsiz : Nat)
    (hn0 : ¬ (n = 0)) (hn64 : ¬ (n ≥ 64)) (hdn : dn ≠ [])
    (hroom : ¬ (dn.length ≥ dstsiz)) :
    ntopGo 0 (n :: X) dn dstsiz = ntopGo n X (dn ++ [46]) dstsiz := by
  rw [ntopGo.eq_def]
  simp only [hn0, hn64, hdn, hroom, if_neg, if_false, reduceIte]

theorem ntop_step_end (X dn : List Nat) (dstsiz : Nat)
    (hdn : dn ≠ []) (hroom : ¬ (dn.length ≥ dstsiz)) :
    ntopGo 0 (0 :: X) dn dstsiz = .ok dn := by
  rw [ntopGo.eq_def]
  simp only [hdn, hroom, if_neg, if_false, reduceIte]

theorem ntop_tail (L : List (List Nat)) (hL : GoodLabels L) :
    ∀ (dn : List Nat) (dstsiz : Nat), dn ≠ [] →
      dn.length + 4 * (encodeName L).length ≤ dstsiz →
      ntopGo 0 (encodeName L) dn dstsiz = .ok (dn ++ renderTail L) := by
  induction L with
  | nil =>
    intro dn dstsiz hne hroom
    have henc1 : (encodeName ([] : List (List Nat))).length = 1 := rfl
    rw [henc1] at hroom
    show ntopGo 0 (0 :: []) dn dstsiz = _
    rw [ntop_step_end [] dn dstsiz hne (by omega)]
    simp [renderTail]
  | cons l rest ih =>
    intro dn dstsiz hne hroom
    have hl := hL l (by simp)
    have hLrest : GoodLabels rest := fun x hx => hL x (by simp [hx])
    have hencl : (encodeName (l :: rest)).length
        = 1 + l.length + (encodeName rest).length := by
      rw [encodeName_cons]
      simp only [List.length_cons, List.length_append]
      omega
    rw [hencl] at hroom
    have hencp := encodeName_length_pos rest
    rw [encodeName_cons]
    rw [ntop_step_sep l.length (l ++ encodeName rest) dn dstsiz
      (by omega) (by omega) hne (by omega)]
    rw [ntop_label l (encodeName rest) (dn ++ [46]) dstsiz
      (by simp only [List.length_append, List.length_cons, List.length_nil]; omega)]
    rw [ih hLrest ((dn ++ [46]) ++ renderLabel l) dstsiz (by simp)
      (by
        have := renderLabel_length_le l
        simp only [List.length_append, List.length_cons, List.length_nil]
        omega)]
    rw [renderTail_cons]
    simp [List.append_assoc]

theorem ntop_renderName (L : List (List Nat)) (hL : GoodLabels L)
    (hlen : (encodeName L).length ≤ 255) :
    rip_ns_name_ntop (encodeName L) 1024 = .ok (renderName L) := by
  cases L with
  | nil => rfl
  | cons l rest =>
    have hl := hL l (by simp)
    have hLrest : GoodLabels rest := fun x hx => hL x (by simp [hx])
    have hencl : (encodeName (l :: rest)).length
        = 1 + l.length + (encodeName rest).length := by
      rw [encodeName_cons]
      simp only [List.length_cons, List.length_append]
      omega
    rw [hencl] at hlen
    have hrlne : renderLabel l ≠ [] := by
      obtain ⟨hh, ht, hhead, -, -⟩ := renderLabel_head l
        (by intro h; rw [h] at hl; simp at hl)
      rw [hhead]
      simp
    unfold rip_ns_name_ntop
    rw [encodeName_cons]
    rw [ntopGo.eq_def]
    have hne0 : ¬ (l.length = 0) := by omega
    have hne64 : ¬ (l.length ≥ 64) := by omega
    simp only [hne0, hne64, if_neg, if_false, reduceIte]
    rw [ntop_label l (encodeName rest) [] 1024 (by simp; omega)]
    rw [show (([] : List Nat) ++ renderLabel l) = renderLabel l from rfl]
    rw [ntop_tail rest hLrest (renderLabel l) 1024 hrlne
      (by
        have := renderLabel_length_le l
        omega)]
    rfl

/-- C9: for every valid uncompressed wire-format name of at most 255
bytes (an `encodeName L` with well-formed labels), decoding with
rip_ns_name_ntop into the server's 1024-byte text buffer and re-encoding
the resulting string with rip_ns_name_pton into a 256-byte wire buffer
reproduces the original wire-format name. -/
theorem claim_C9 (L : List (List Nat)) (hL : GoodLabels L)
    (hlen : (encodeName L).length ≤ 255) :
    ∃ s fq, rip_ns_name_ntop (encodeName L) 1024 = .ok s
      ∧ rip_ns_name_pton s 256 = .ok fq (encodeName L) := by
  obtain ⟨fq, hp⟩ := pton_renderName L hL hlen
  exact ⟨renderName L, fq, ntop_renderName L hL hlen, hp⟩

theorem claim_C9_witness :
    GoodLabels [[119, 119, 119], [101, 0, 46]]
    ∧ (encodeName [[119, 119, 119], [101, 0, 46]]).length ≤ 255
    ∧ ∃ s fq,
        rip_ns_name_ntop (encodeName [[119, 119, 119], [101, 0, 46]]) 1024 = .ok s
        ∧ rip_ns_name_pton s 256
          = .ok fq (encodeName [[119, 119, 119], [101, 0, 46]]) :=
  ⟨by decide, by decide,
   claim_C9 [[119, 119, 119], [101, 0, 46]] (by decide) (by decide)⟩

end Ripples
